import Mathlib

/-!
# Verification of the notebooker override-handling subsystem

This file gives a shallow embedding of the parameter-override evaluation
subsystem of the notebooker repository and of the report-execution route
helpers, and proves the specified properties about them.

The route helpers (`handle_run_report`, `rerun_report`) are translated from
`notebooker/web/routes/report_execution.py`.  The override interpreter
(`handle_overrides` and its components) is not part of the provided sources
(only its integration test and its caller are), so it is modelled from the
specification: a statement parser (newline/semicolon splitting, backslash
line-continuation, import/assignment/bare-expression shapes), a sandboxed
evaluator over an accumulating namespace with a fixed module allow-list, a
JSON serialisability validator, and issue strings with fixed prefixes.
-/

/-- The canonical JSON values reachable from the override sub-language:
null, integers and strings (the only shapes `json.dumps` can produce for
values the restricted evaluator builds). -/
inductive Json where
  | jNull
  | jInt (n : Int)
  | jStr (s : String)
deriving DecidableEq

/-- Modelled from the spec: the Python runtime values the sandboxed
evaluator can produce.  `vNone`, `vInt` and `vStr` are the
JSON-serialisable ones; `vDatetime` models a `datetime.datetime` instance
(year, month, day, hour, minute, second); `vModule` a bound module object,
`vClass` the `datetime.datetime` class, and `vBound` a bound method of a
receiver value (such as `isoformat`). -/
inductive PyValue where
  | vNone
  | vInt (n : Int)
  | vStr (s : String)
  | vDatetime (y mo d hh mi ss : Nat)
  | vModule (name : String)
  | vClass (name : String)
  | vBound (methodName : String) (recv : PyValue)
deriving DecidableEq

/-- Modelled from the spec: the failure categories the sandboxed evaluator
can catch, each carrying what is needed for its diagnostic message. -/
inductive PyError where
  | nameError (x : String)
  | moduleNotFound (m : String)
  | attributeError (msg : String)
  | typeError (msg : String)
  | valueError (msg : String)
  | importError (msg : String)
  | parseError
deriving DecidableEq

/-- Left-pad a natural number to two digits, as Python date formatting does. -/
def pad2 (n : Nat) : String :=
  if n < 10 then ("0") ++ Nat.repr n else Nat.repr n

/-- Left-pad a natural number to four digits, as Python date formatting does. -/
def pad4 (n : Nat) : String :=
  if n < 10 then ("000") ++ Nat.repr n
  else if n < 100 then ("00") ++ Nat.repr n
  else if n < 1000 then ("0") ++ Nat.repr n
  else Nat.repr n

/-- `datetime.isoformat()`: `YYYY-MM-DDTHH:MM:SS`. -/
def isoformat (y mo d hh mi ss : Nat) : String :=
  pad4 y ++ "-" ++ pad2 mo ++ "-" ++ pad2 d ++ "T" ++
    pad2 hh ++ ":" ++ pad2 mi ++ ":" ++ pad2 ss

/-- The `str`/`repr` form used when a value is interpolated into an issue
message (`datetime` values print as `YYYY-MM-DD HH:MM:SS`). -/
def pyRepr : PyValue → String
  | .vNone => "None"
  | .vInt n => Int.repr n
  | .vStr s => s
  | .vDatetime y mo d hh mi ss =>
      pad4 y ++ "-" ++ pad2 mo ++ "-" ++ pad2 d ++ " " ++
        pad2 hh ++ ":" ++ pad2 mi ++ ":" ++ pad2 ss
  | .vModule m => "<module (" ++ m ++ ")>"
  | .vClass c => "<class (" ++ c ++ ")>"
  | .vBound f _ => "<bound method (" ++ f ++ ")>"

/-- The Python type name of a runtime value, as `type(value)` would show it. -/
def pyTypeName : PyValue → String
  | .vNone => "NoneType"
  | .vInt _ => "int"
  | .vStr _ => "str"
  | .vDatetime _ _ _ _ _ _ => "datetime.datetime"
  | .vModule _ => "module"
  | .vClass _ => "type"
  | .vBound _ _ => "builtin_function_or_method"

/-- Modelled from the spec: encoding into the canonical JSON format
(`json.dumps`); only null, integers and strings succeed, every other
runtime value raises. -/
def toJson : PyValue → Option Json
  | .vNone => some Json.jNull
  | .vInt n => some (Json.jInt n)
  | .vStr s => some (Json.jStr s)
  | _ => none

/-- Modelled from the spec: decoding back from the canonical JSON format
(`json.loads`). -/
def fromJson : Json → PyValue
  | .jNull => PyValue.vNone
  | .jInt n => PyValue.vInt n
  | .jStr s => PyValue.vStr s

/-- One encode/decode round trip through the canonical JSON format:
`some` of the decoded value when the value is serialisable, `none` when
encoding raises. -/
def jsonRoundTrip (v : PyValue) : Option PyValue :=
  match toJson v with
  | some j => some (fromJson j)
  | none => none

/-- The error message `json.dumps` raises for a non-serialisable value. -/
def jsonErrMsg (v : PyValue) : String :=
  "Object of type (" ++ pyTypeName v ++ ") is not JSON serializable"

/-- Modelled from the spec: the serialisation-failure issue string, with its
fixed greppable prefix. -/
def serialiseIssue (k : String) (v : PyValue) : String :=
  "Could not JSON serialise a parameter (\"" ++ k ++
    "\") - this must be serialisable so that we can execute the notebook with it! (Error: " ++
    jsonErrMsg v ++ ", Value: " ++ pyRepr v ++ ")"

/-- Modelled from the spec: the Serializability Validator.  Every bound
name is round-tripped through the canonical JSON format; successes are kept
(in their decoded form), failures are dropped and reported as exactly one
issue each, in namespace order. -/
def serialiseOverrides : List (String × PyValue) → List (String × PyValue) × List String
  | [] => ([], [])
  | (k, v) :: rest =>
      let r := serialiseOverrides rest
      match jsonRoundTrip v with
      | some w => ((k, w) :: r.1, r.2)
      | none => (r.1, serialiseIssue k v :: r.2)

/-- Modelled from the spec: the abstract syntax of the minimal expression
sub-language (names, integer literals, attribute access, call expressions).
Argument lists of a call are encoded as a chain of `argsCons`/`argsNil`
nodes so that all functions over the syntax are plain structural
recursions. -/
inductive Expr where
  | name (x : String)
  | intLit (n : Int)
  | attr (e : Expr) (field : String)
  | call (f : Expr) (args : Expr)
  | argsNil
  | argsCons (hd : Expr) (tl : Expr)
deriving DecidableEq

/-- The names an expression references, in evaluation order. -/
def freeVars : Expr → List String
  | .name x => [x]
  | .intLit _ => []
  | .attr e _ => freeVars e
  | .call f a => freeVars f ++ freeVars a
  | .argsNil => []
  | .argsCons h t => freeVars h ++ freeVars t

/-- The `type(...)` rendering of the AST node of an expression, as CPython
prints it (the dead-expression warning interpolates the *AST node* of the
statement, not its runtime value). -/
def astTypeName : Expr → String
  | .name _ => "<class \x27ast.Name\x27>"
  | .intLit _ => "<class \x27ast.Constant\x27>"
  | .attr _ _ => "<class \x27ast.Attribute\x27>"
  | .call _ _ => "<class \x27ast.Call\x27>"
  | .argsNil => "<class \x27list\x27>"
  | .argsCons _ _ => "<class \x27list\x27>"

/-- Tokens of the expression sub-language. -/
inductive Tok where
  | tIdent (s : String)
  | tInt (n : Nat)
  | tDot
  | tLParen
  | tRParen
  | tComma
deriving DecidableEq

/-- First character of a Python identifier. -/
def isIdentStart (c : Char) : Bool :=
  (c ≥ 'a' && c ≤ 'z') || (c ≥ 'A' && c ≤ 'Z') || c = '_'

/-- Subsequent character of a Python identifier. -/
def isIdentCh (c : Char) : Bool :=
  isIdentStart c || (c ≥ '0' && c ≤ '9')

/-- Decimal digit. -/
def isDigitCh (c : Char) : Bool :=
  c ≥ '0' && c ≤ '9'

/-- Numeric value of a digit list (most significant first). -/
def digitsToNat (acc : Nat) : List Char → Nat
  | [] => acc
  | c :: rest => digitsToNat (acc * 10 + (c.toNat - 48)) rest

/-- Fuel-driven tokenizer for the expression sub-language; `none` on any
character outside the sub-language (surfaces as a parse failure). -/
def tokenizeF : Nat → List Char → Option (List Tok)
  | 0, _ => none
  | _ + 1, [] => some []
  | fuel + 1, c :: rest =>
      if c = ' ' then tokenizeF fuel rest
      else if isIdentStart c then
        let p := List.span isIdentCh (c :: rest)
        match tokenizeF fuel p.2 with
        | some ts => some (Tok.tIdent (String.mk p.1) :: ts)
        | none => none
      else if isDigitCh c then
        let p := List.span isDigitCh (c :: rest)
        match tokenizeF fuel p.2 with
        | some ts => some (Tok.tInt (digitsToNat 0 p.1) :: ts)
        | none => none
      else if c = '.' then
        match tokenizeF fuel rest with
        | some ts => some (Tok.tDot :: ts)
        | none => none
      else if c = '(' then
        match tokenizeF fuel rest with
        | some ts => some (Tok.tLParen :: ts)
        | none => none
      else if c = ')' then
        match tokenizeF fuel rest with
        | some ts => some (Tok.tRParen :: ts)
        | none => none
      else if c = ',' then
        match tokenizeF fuel rest with
        | some ts => some (Tok.tComma :: ts)
        | none => none
      else none

/-- Tokenize a character list, with enough fuel to consume it entirely. -/
def tokenize (cs : List Char) : Option (List Tok) :=
  tokenizeF (cs.length + 1) cs

/-- Parsing modes of the recursive-descent expression parser: parse a fresh
expression, extend a parsed head with trailers (`.field`, `(args)`), or
collect call arguments for a callee. -/
inductive PMode where
  | pExpr
  | pTrail (e : Expr)
  | pArgsAfter (callee : Expr) (acc : List Expr)

/-- Turn a collected argument list into the `argsCons` chain encoding. -/
def chainOf : List Expr → Expr
  | [] => Expr.argsNil
  | e :: rest => Expr.argsCons e (chainOf rest)

/-- Fuel-driven recursive-descent parser for the expression sub-language:
`expr := primary trailer*`, `primary := ident | int`, `trailer := .ident |
(args)`. -/
def parseF : Nat → PMode → List Tok → Option (Expr × List Tok)
  | 0, _, _ => none
  | fuel + 1, .pExpr, toks =>
      match toks with
      | Tok.tIdent s :: rest => parseF fuel (.pTrail (Expr.name s)) rest
      | Tok.tInt n :: rest => parseF fuel (.pTrail (Expr.intLit (Int.ofNat n))) rest
      | _ => none
  | fuel + 1, .pTrail e, toks =>
      match toks with
      | Tok.tDot :: Tok.tIdent f :: rest => parseF fuel (.pTrail (Expr.attr e f)) rest
      | Tok.tLParen :: Tok.tRParen :: rest =>
          parseF fuel (.pTrail (Expr.call e Expr.argsNil)) rest
      | Tok.tLParen :: rest => parseF fuel (.pArgsAfter e []) rest
      | _ => some (e, toks)
  | fuel + 1, .pArgsAfter callee acc, toks =>
      match parseF fuel .pExpr toks with
      | some (a, Tok.tComma :: rest) => parseF fuel (.pArgsAfter callee (acc ++ [a])) rest
      | some (a, Tok.tRParen :: rest) =>
          parseF fuel (.pTrail (Expr.call callee (chainOf (acc ++ [a])))) rest
      | _ => none

/-- Parse the text of one expression; `none` models the underlying
expression compiler raising a syntax error. -/
def parseExprText (s : String) : Option Expr :=
  match tokenize s.data with
  | none => none
  | some toks =>
      match parseF (4 * toks.length + 16) .pExpr toks with
      | some (e, []) => some e
      | _ => none

/-- The evaluation namespace: variable name to value, insertion-ordered. -/
def Namespace := List (String × PyValue)

/-- Look a name up in the namespace. -/
def lookupVar : List (String × PyValue) → String → Option PyValue
  | [], _ => none
  | (k, v) :: rest, x => if k = x then some v else lookupVar rest x

/-- Bind a name: update in place when present, append otherwise (insertion
order preserved, keys unique — Python dict assignment). -/
def bindVar : List (String × PyValue) → String → PyValue → List (String × PyValue)
  | [], x, v => [(x, v)]
  | (k, w) :: rest, x, v =>
      if k = x then (x, v) :: rest else (k, w) :: bindVar rest x v

/-- Modelled from the spec: the administrator-controlled allow-list of
importable modules. -/
def allowedModules : List String := ["datetime"]

/-- Modelled from the spec: the value table of an allow-listed module —
`datetime.datetime` is the datetime class. -/
def moduleAttr : String → String → Option PyValue
  | "datetime", "datetime" => some (PyValue.vClass ("datetime.datetime"))
  | _, _ => none

/-- Attribute access on a runtime value: module attributes come from the
value table of the module, datetime instances expose `isoformat` as a bound
method; everything else raises `AttributeError`. -/
def getAttr : PyValue → String → Except PyError PyValue
  | .vModule m, f =>
      match moduleAttr m f with
      | some v => Except.ok v
      | none =>
          Except.error (PyError.attributeError
            ("module \x27" ++ m ++ "\x27 has no attribute \x27" ++ f ++ "\x27"))
  | .vDatetime y mo d hh mi ss, "isoformat" =>
      Except.ok (PyValue.vBound ("isoformat") (PyValue.vDatetime y mo d hh mi ss))
  | v, f =>
      Except.error (PyError.attributeError
        ("\x27" ++ pyTypeName v ++ "\x27 object has no attribute \x27" ++ f ++ "\x27"))

/-- Call a runtime value on evaluated arguments: the datetime class builds a
datetime instance from three in-range integers; a bound `isoformat` method
formats its receiver; anything else raises. -/
def applyCallable : PyValue → List PyValue → Except PyError PyValue
  | .vClass ("datetime.datetime"), [.vInt y, .vInt mo, .vInt d] =>
      if 1 ≤ y && y ≤ 9999 && 1 ≤ mo && mo ≤ 12 && 1 ≤ d && d ≤ 31 then
        Except.ok (PyValue.vDatetime y.toNat mo.toNat d.toNat 0 0 0)
      else
        Except.error (PyError.valueError ("argument out of range for datetime"))
  | .vClass ("datetime.datetime"), _ =>
      Except.error (PyError.typeError ("invalid arguments for datetime.datetime"))
  | .vBound ("isoformat") (.vDatetime y mo d hh mi ss), [] =>
      Except.ok (PyValue.vStr (isoformat y mo d hh mi ss))
  | .vBound m _, _ =>
      Except.error (PyError.typeError ("invalid arguments for method " ++ m))
  | v, _ =>
      Except.error (PyError.typeError
        ("\x27" ++ pyTypeName v ++ "\x27 object is not callable"))

/-- Modelled from the spec: the sandboxed expression evaluator.  The
namespace is the only source of bindings; every failure is an explicit
`PyError`.  A proper expression evaluates to a singleton list; an
`argsCons`/`argsNil` chain evaluates to the list of its argument values,
left to right (this keeps the evaluator one structural recursion). -/
def evalExpr (ns : List (String × PyValue)) : Expr → Except PyError (List PyValue)
  | .name x =>
      match lookupVar ns x with
      | some v => Except.ok [v]
      | none => Except.error (PyError.nameError x)
  | .intLit n => Except.ok [PyValue.vInt n]
  | .attr e f =>
      match evalExpr ns e with
      | Except.ok [v] =>
          match getAttr v f with
          | Except.ok w => Except.ok [w]
          | Except.error er => Except.error er
      | Except.ok _ => Except.error (PyError.typeError ("attribute of non-value"))
      | Except.error er => Except.error er
  | .call f a =>
      match evalExpr ns f with
      | Except.ok [fv] =>
          match evalExpr ns a with
          | Except.ok avs =>
              match applyCallable fv avs with
              | Except.ok w => Except.ok [w]
              | Except.error er => Except.error er
          | Except.error er => Except.error er
      | Except.ok _ => Except.error (PyError.typeError ("call of non-value"))
      | Except.error er => Except.error er
  | .argsNil => Except.ok []
  | .argsCons h t =>
      match evalExpr ns h with
      | Except.ok [v] =>
          match evalExpr ns t with
          | Except.ok vs => Except.ok (v :: vs)
          | Except.error er => Except.error er
      | Except.ok _ => Except.error (PyError.typeError ("argument of non-value"))
      | Except.error er => Except.error er

/-- Evaluate one proper expression to a single value. -/
def evalExpr1 (ns : List (String × PyValue)) (e : Expr) : Except PyError PyValue :=
  match evalExpr ns e with
  | Except.ok [v] => Except.ok v
  | Except.ok _ => Except.error (PyError.typeError ("expression of non-value"))
  | Except.error er => Except.error er

/-- Modelled from the spec: one classified override statement.  Imports
carry the module (and, for `from` imports, the imported symbol) together
with the name they bind; assignment and bare-expression statements keep the
raw expression text (compiled only when evaluated, as the underlying
expression evaluator does). -/
inductive Stmt where
  | imp (module : String) (bindAs : String)
  | impFrom (module : String) (symbol : String) (bindAs : String)
  | assign (target : String) (exprText : String)
  | bare (exprText : String)
deriving DecidableEq

/-- Whitespace characters for trimming and blank detection. -/
def isSpaceCh (c : Char) : Bool :=
  c = ' ' || c = '\t' || c = '\r' || c = '\n'

/-- Join backslash line-continuations: a backslash immediately followed by a
newline disappears together with the newline, fusing two physical lines
into one logical statement. -/
def joinContinuations : List Char → List Char
  | [] => []
  | '\\' :: '\n' :: rest => joinContinuations rest
  | c :: rest => c :: joinContinuations rest

/-- Split a character list on a separator character (the separator is
dropped; `n` separators yield `n + 1` pieces). -/
def splitOnCh (sep : Char) : List Char → List (List Char)
  | [] => [[]]
  | c :: rest =>
      match splitOnCh sep rest with
      | [] => [[c]]
      | p :: ps => if c = sep then [] :: p :: ps else (c :: p) :: ps

/-- Strip leading and trailing whitespace. -/
def trimChars (l : List Char) : List Char :=
  ((l.dropWhile isSpaceCh).reverse.dropWhile isSpaceCh).reverse

/-- Modelled from the spec: split the raw override text into logical
statement texts — join backslash continuations, split on newlines and
semicolons, trim, and drop blank pieces. -/
def splitStatements (s : String) : List (List Char) :=
  let cs := joinContinuations s.data
  let pieces := ((splitOnCh '\n' cs).map (splitOnCh ';')).flatten
  (pieces.map trimChars).filter (fun p => decide (p ≠ []))

/-- Characters allowed in a module path (`[a-zA-Z0-9_.]`). -/
def isModuleCh (c : Char) : Bool :=
  isIdentCh c || c = '.'

/-- Characters allowed in an assignment target (`[a-zA-Z_]`). -/
def isNameCh (c : Char) : Bool :=
  isIdentStart c

/-- The name a plain `import a.b.c` binds: the root package name. -/
def rootName (t : List Char) : List Char :=
  t.takeWhile (fun c => decide (c ≠ '.'))

/-- Modelled from the spec: recognize the import shape
`(from M )?import T( as A)?`. -/
def matchImport (piece : List Char) : Option Stmt :=
  let ws := (splitOnCh ' ' piece).filter (fun w => decide (w ≠ []))
  match ws with
  | [i, t] =>
      if i == ("import").data && t.all isModuleCh && !t.isEmpty then
        some (Stmt.imp (String.mk t) (String.mk (rootName t)))
      else none
  | [w1, w2, w3, w4] =>
      if w1 == ("import").data && w3 == ("as").data &&
          w2.all isModuleCh && !w2.isEmpty && w4.all isIdentCh && !w4.isEmpty then
        some (Stmt.imp (String.mk w2) (String.mk w4))
      else if w1 == ("from").data && w3 == ("import").data &&
          w2.all isModuleCh && !w2.isEmpty && w4.all isIdentCh && !w4.isEmpty then
        some (Stmt.impFrom (String.mk w2) (String.mk w4) (String.mk w4))
      else none
  | [f, m, i, t, a, al] =>
      if f == ("from").data && i == ("import").data && a == ("as").data &&
          m.all isModuleCh && !m.isEmpty && t.all isIdentCh && !t.isEmpty &&
          al.all isIdentCh && !al.isEmpty then
        some (Stmt.impFrom (String.mk m) (String.mk t) (String.mk al))
      else none
  | _ => none

/-- Modelled from the spec: recognize the assignment shape
`<identifier> *= *<expression>` (split at the first `=`). -/
def matchAssign (piece : List Char) : Option Stmt :=
  let p := piece.span (fun c => decide (c ≠ '='))
  match p.2 with
  | '=' :: rhs =>
      let nm := p.1.takeWhile isNameCh
      let spaces := p.1.drop nm.length
      let value := rhs.dropWhile (fun c => c = ' ')
      if !nm.isEmpty && spaces.all (fun c => c = ' ') && !value.isEmpty then
        some (Stmt.assign (String.mk nm) (String.mk value))
      else none
  | _ => none

/-- Modelled from the spec: classify one logical statement text as an
import, an assignment, or (matching neither shape) a bare expression. -/
def classifyStmt (piece : List Char) : Stmt :=
  match matchImport piece with
  | some st => st
  | none =>
      match matchAssign piece with
      | some st => st
      | none => Stmt.bare (String.mk piece)

/-- Modelled from the spec: the Statement Parser — raw override text to the
ordered sequence of classified statements. -/
def parseStatements (s : String) : List Stmt :=
  (splitStatements s).map classifyStmt

/-- The outcome of processing one statement: a binding, nothing (a bare
expression evaluating to `None`), a dead-expression warning, or a caught
failure. -/
inductive StmtOutcome where
  | boundImport (k : String) (v : PyValue)
  | boundVar (k : String) (v : PyValue)
  | noEffect
  | deadExpr (typeName : String)
  | failed (er : PyError)
deriving DecidableEq

/-- The diagnostic message of a caught failure, as the underlying Python
exception renders it. -/
def errMsg : PyError → String
  | .nameError x => "name \x27" ++ x ++ "\x27 is not defined"
  | .moduleNotFound m => "No module named \x27" ++ m ++ "\x27"
  | .attributeError m => m
  | .typeError m => m
  | .valueError m => m
  | .importError m => m
  | .parseError => "invalid syntax"

/-- Modelled from the spec: the error-issue string with its fixed greppable
prefix. -/
def errIssue (er : PyError) : String :=
  "An error was encountered: " ++ errMsg er

/-- Modelled from the spec: the dead-expression warning with its fixed
greppable prefix. -/
def deadExprIssue (typeName : String) : String :=
  "Found an expression that did nothing! It has a value of type: " ++ typeName

/-- Modelled from the spec: how the Sandboxed Evaluator treats of one
statement against the current namespace.  Imports resolve against the
allow-list; assignments evaluate their right-hand side with the namespace
as the only bindings; bare expressions are evaluated and a successful
non-`None` result becomes a dead-expression warning carrying the AST node
type of the expression. -/
def runStmt (ns : List (String × PyValue)) : Stmt → StmtOutcome
  | .imp m bindAs =>
      if m ∈ allowedModules then StmtOutcome.boundImport bindAs (PyValue.vModule m)
      else StmtOutcome.failed (PyError.moduleNotFound m)
  | .impFrom m sym bindAs =>
      if m ∈ allowedModules then
        match moduleAttr m sym with
        | some v => StmtOutcome.boundImport bindAs v
        | none =>
            StmtOutcome.failed (PyError.importError
              ("cannot import name \x27" ++ sym ++ "\x27 from \x27" ++ m ++ "\x27"))
      else StmtOutcome.failed (PyError.moduleNotFound m)
  | .assign t etext =>
      match parseExprText etext with
      | none => StmtOutcome.failed PyError.parseError
      | some e =>
          match evalExpr1 ns e with
          | Except.ok v => StmtOutcome.boundVar t v
          | Except.error er => StmtOutcome.failed er
  | .bare etext =>
      match parseExprText etext with
      | none => StmtOutcome.failed PyError.parseError
      | some e =>
          match evalExpr1 ns e with
          | Except.ok v =>
              if v = PyValue.vNone then StmtOutcome.noEffect
              else StmtOutcome.deadExpr (astTypeName e)
          | Except.error er => StmtOutcome.failed er

/-- The accumulating evaluation state: `ns` is the full namespace every
statement evaluates against (imports and variables); `vars` is its
projection to assignment targets — the override candidates handed to the
Serializability Validator (imported modules parameterize evaluation but are
not themselves overrides); `issues` is the list of the Issue Reporter. -/
structure EvalState where
  ns : List (String × PyValue)
  vars : List (String × PyValue)
  issues : List String
deriving DecidableEq

/-- Modelled from the spec: fold one statement into the evaluation state.
Failures and warnings append exactly one issue and bind nothing; a
successful import binds one name into the namespace; a successful
assignment binds its target both into the namespace and into the override
candidates. -/
def stepStmt (st : EvalState) (s : Stmt) : EvalState :=
  match runStmt st.ns s with
  | .boundImport k v => { st with ns := bindVar st.ns k v }
  | .boundVar k v =>
      { st with ns := bindVar st.ns k v, vars := bindVar st.vars k v }
  | .noEffect => st
  | .deadExpr tn => { st with issues := st.issues ++ [deadExprIssue tn] }
  | .failed er => { st with issues := st.issues ++ [errIssue er] }

/-- Modelled from the spec: `handle_overrides` — the missing
`notebooker/web/handle_overrides.py` entry point.  Parses the raw override
text (`none` models a null form field), evaluates the statements in order
against a fresh namespace, then filters the assigned variables through the
Serializability Validator; returns the final mapping together with the
issues list of the caller extended by every collected issue. -/
def handle_overrides (raw : Option String) (issues : List String) :
    List (String × PyValue) × List String :=
  match raw with
  | none => ([], issues)
  | some s =>
      let st := (parseStatements s).foldl stepStmt (EvalState.mk [] [] issues)
      let r := serialiseOverrides st.vars
      (r.1, st.issues ++ r.2)

/-- The response `_handle_run_report` produces, from
`notebooker/web/routes/report_execution.py`: either
`jsonify({"status": ..., "content": ...})` (used both for the issues abort
and for the `RuntimeError` branch) or the 202-accepted response carrying
the new job id. -/
inductive RunResponse where
  | statusResp (status : String) (content : String)
  | acceptedResp (jobId : String)
deriving DecidableEq

/-- Translated from `_handle_run_report` in
`notebooker/web/routes/report_execution.py`.  `validate_run_params` (whose
helpers `validate_title`/`validate_mailto` are outside the provided
sources) is abstracted by the list `valIssues` of issues it appends to the
list of the caller; `runJob` abstracts `run_report_in_subprocess`, with
`Except.error` modelling its `RuntimeError`.  The returned flag records
whether `run_report_in_subprocess` was invoked. -/
def handle_run_report (overridesDict : List (String × PyValue))
    (issues valIssues : List String)
    (runJob : List (String × PyValue) → Except String String) :
    RunResponse × Bool :=
  let issues2 := issues ++ valIssues
  if issues2 ≠ [] then
    (RunResponse.statusResp ("Failed") (String.intercalate ("\n") issues2), false)
  else
    match runJob overridesDict with
    | Except.ok jobId => (RunResponse.acceptedResp jobId, true)
    | Except.error e =>
        (RunResponse.statusResp ("Failed") ("The job failed to initialise. Error: " ++ e), true)

/-- the Python method `str.startswith`, modelled on the underlying character
sequence. -/
def pyStartsWith (s pre : String) : Bool :=
  pre.data.isPrefixOf s.data

/-- A stored result as `_rerun_report` reads it back from the serializer
(the fields it forwards to `run_report_in_subprocess`). -/
structure CheckResult where
  report_name : String
  report_title : String
  mailto : String
  error_mailto : String
  overrides : List (String × PyValue)
  hide_code : Bool
  generate_pdf_output : Bool
  is_slideshow : Bool
  email_subject : String
  mailfrom : String
deriving DecidableEq

/-- The arguments `_rerun_report` passes to `run_report_in_subprocess`. -/
structure SubmittedJob where
  report_name : String
  report_title : String
  mailto : String
  error_mailto : String
  overrides : List (String × PyValue)
  hide_code : Bool
  generate_pdf_output : Bool
  is_slideshow : Bool
  email_subject : String
  mailfrom : String
deriving DecidableEq

/-- Translated from `_rerun_report`: the rerun title reuses the stored
title when it already starts with `"Rerun of "`, otherwise prepends that
prefix once. -/
def rerun_title (t : String) : String :=
  if pyStartsWith t ("Rerun of ") then t else ("Rerun of ") ++ t

/-- Translated from `_rerun_report` in
`notebooker/web/routes/report_execution.py`: the job submitted for a rerun
— stored fields are forwarded verbatim except the title, which goes
through `rerun_title`. -/
def rerun_report (result : CheckResult) : SubmittedJob :=
  { report_name := result.report_name
    report_title := rerun_title result.report_title
    mailto := result.mailto
    error_mailto := result.error_mailto
    overrides := result.overrides
    hide_code := result.hide_code
    generate_pdf_output := result.generate_pdf_output
    is_slideshow := result.is_slideshow
    email_subject := result.email_subject
    mailfrom := result.mailfrom }

theorem jsonRoundTrip_fromJson (j : Json) :
    jsonRoundTrip (fromJson j) = some (fromJson j) := by
  cases j <;> rfl

theorem jsonRoundTrip_fixed {v w : PyValue} (h : jsonRoundTrip v = some w) :
    jsonRoundTrip w = some w := by
  cases v <;> simp [jsonRoundTrip, toJson] at h <;> simp [← h] <;> rfl

example : parseExprText ("dt(2018, 1, 1).isoformat()") =
    some (Expr.call
      (Expr.attr
        (Expr.call (Expr.name ("dt"))
          (Expr.argsCons (Expr.intLit 2018)
            (Expr.argsCons (Expr.intLit 1) (Expr.argsCons (Expr.intLit 1) Expr.argsNil))))
        "isoformat")
      Expr.argsNil) := by rfl

example : parseExprText ("datetime.datetime(2018, 1, 1)") =
    some (Expr.call
      (Expr.attr (Expr.name ("datetime")) "datetime")
      (Expr.argsCons (Expr.intLit 2018)
        (Expr.argsCons (Expr.intLit 1) (Expr.argsCons (Expr.intLit 1) Expr.argsNil)))) := by rfl

example : parseExprText ("d = 5") = none := by rfl

example : evalExpr1 [("dt", PyValue.vClass ("datetime.datetime"))]
    (Expr.call
      (Expr.attr
        (Expr.call (Expr.name ("dt"))
          (Expr.argsCons (Expr.intLit 2018)
            (Expr.argsCons (Expr.intLit 1) (Expr.argsCons (Expr.intLit 1) Expr.argsNil))))
        "isoformat")
      Expr.argsNil) = Except.ok (PyValue.vStr ("2018-01-01T00:00:00")) := by rfl

example : parseStatements ("from datetime import datetime as dt;d = dt(2018, 1, 1).isoformat()\nq=\\\ndt(2011, 5, 1).isoformat()") =
    [Stmt.impFrom ("datetime") "datetime" "dt",
     Stmt.assign ("d") "dt(2018, 1, 1).isoformat()",
     Stmt.assign ("q") "dt(2011, 5, 1).isoformat()"] := by rfl

example : parseStatements ("import datetime;datetime.datetime(2018, 1, 1)") =
    [Stmt.imp ("datetime") "datetime", Stmt.bare ("datetime.datetime(2018, 1, 1)")] := by rfl

example : parseStatements ("") = [] := by rfl

example : handle_overrides (some ("")) [] = ([], []) := by rfl

example : handle_overrides (some ("import datetime\nd = datetime.datetime(2018, 1, 1).isoformat()")) [] =
    ([("d", PyValue.vStr ("2018-01-01T00:00:00"))], []) := by rfl

example : handle_overrides (some ("import datetime\nd = datetime.datetime(2018, 1, 1)")) [] =
    ([], [serialiseIssue ("d") (PyValue.vDatetime 2018 1 1 0 0 0)]) := by rfl

example : handle_overrides (some ("datetime.datetime(2018, 1, 1)")) [] =
    ([], ["An error was encountered: name \x27datetime\x27 is not defined"]) := by rfl

example : handle_overrides (some ("import datetime;datetime.datetime(2018, 1, 1)")) [] =
    ([], ["Found an expression that did nothing! It has a value of type: <class \x27ast.Call\x27>"]) := by rfl

example : handle_overrides (some ("import datetimes\nd = datetime.datetime(2018, 1, 1)")) [] =
    ([], ["An error was encountered: No module named \x27datetimes\x27",
          "An error was encountered: name \x27datetime\x27 is not defined"]) := by rfl

example : handle_overrides (some ("from datetime import datetime as dt;d = dt(2018, 1, 1).isoformat()\nq=\\\ndt(2011, 5, 1).isoformat()")) [] =
    ([("d", PyValue.vStr ("2018-01-01T00:00:00")), ("q", PyValue.vStr ("2011-05-01T00:00:00"))], []) := by rfl

theorem joinCont_id (l : List Char) (h : ∀ c ∈ l, c ≠ '\\') :
    joinContinuations l = l := by
  induction l with
  | nil => rfl
  | cons c rest ih =>
      have hc : c ≠ '\\' := h c (List.mem_cons_self c rest)
      have hrest : ∀ a ∈ rest, a ≠ '\\' := fun a ha => h a (List.mem_cons_of_mem c ha)
      cases rest with
      | nil =>
          rw [joinContinuations.eq_def]
          simp
          rfl
      | cons c2 rest2 =>
          rw [joinContinuations.eq_def]
          split
          · next heq => simp at heq
          · next heq =>
              injection heq with h1 h2
              exact absurd h1 hc
          · next heq =>
              injection heq with h1 h2
              subst h1
              subst h2
              exact congrArg _ (ih hrest)

theorem splitOnCh_ne_nil (sep : Char) (l : List Char) : splitOnCh sep l ≠ [] := by
  induction l with
  | nil => simp [splitOnCh]
  | cons c rest ih =>
      cases hr : splitOnCh sep rest with
      | nil => exact absurd hr ih
      | cons p ps =>
          simp [splitOnCh, hr]
          split <;> simp

theorem splitOnCh_all {p : Char → Prop} (sep : Char) (l : List Char)
    (h : ∀ c ∈ l, p c) :
    ∀ piece ∈ splitOnCh sep l, ∀ c ∈ piece, p c := by
  induction l with
  | nil =>
      intro piece hp c hcp
      simp [splitOnCh] at hp
      subst hp
      simp at hcp
  | cons a rest ih =>
      intro piece hp c hcp
      have ha : p a := h a (List.mem_cons_self a rest)
      have hrest : ∀ x ∈ rest, p x := fun x hx => h x (List.mem_cons_of_mem a hx)
      cases hr : splitOnCh sep rest with
      | nil => exact absurd hr (splitOnCh_ne_nil sep rest)
      | cons q qs =>
          rw [splitOnCh.eq_def] at hp
          simp [hr] at hp
          by_cases hs : a = sep
          · simp [hs] at hp
            rcases hp with hp | hp | hp
            · subst hp; simp at hcp
            · exact ih hrest q (by rw [hr]; exact List.mem_cons_self q qs) c (hp ▸ hcp)
            · exact ih hrest piece (by rw [hr]; exact List.mem_cons_of_mem q hp) c hcp
          · simp [hs] at hp
            rcases hp with hp | hp
            · subst hp
              rcases List.mem_cons.mp hcp with hc1 | hc2
              · subst hc1; exact ha
              · exact ih hrest q (by rw [hr]; exact List.mem_cons_self q qs) c hc2
            · exact ih hrest piece (by rw [hr]; exact List.mem_cons_of_mem q hp) c hcp

theorem trimChars_spaces (l : List Char) (h : ∀ c ∈ l, isSpaceCh c = true) :
    trimChars l = [] := by
  unfold trimChars
  have h1 : l.dropWhile isSpaceCh = [] := by
    rw [List.dropWhile_eq_nil_iff]
    exact h
  rw [h1]
  rfl

theorem splitStatements_blank (s : String) (h : ∀ c ∈ s.data, isSpaceCh c = true) :
    splitStatements s = [] := by
  unfold splitStatements
  have hj : joinContinuations s.data = s.data := by
    apply joinCont_id
    intro c hc he
    have := h c hc
    rw [he] at this
    simp [isSpaceCh] at this
  rw [hj]
  rw [List.filter_eq_nil_iff]
  intro a ha
  simp only [List.mem_map] at ha
  obtain ⟨piece, hpiece, rfl⟩ := ha
  simp only [List.mem_flatten, List.mem_map] at hpiece
  obtain ⟨ps, ⟨line, hline, rfl⟩, hpc⟩ := hpiece
  have hl : ∀ c ∈ line, isSpaceCh c = true := splitOnCh_all '\n' s.data h line hline
  have hp : ∀ c ∈ piece, isSpaceCh c = true := splitOnCh_all ';' line hl piece hpc
  simp [trimChars_spaces piece hp]

theorem serialise_mem_roundtrip (ns : List (String × PyValue)) :
    ∀ p ∈ (serialiseOverrides ns).1, jsonRoundTrip p.2 = some p.2 := by
  induction ns with
  | nil => intro p hp; simp [serialiseOverrides] at hp
  | cons kv rest ih =>
      obtain ⟨k, v⟩ := kv
      intro p hp
      cases hr : jsonRoundTrip v with
      | none =>
          simp only [serialiseOverrides, hr] at hp
          exact ih p hp
      | some w =>
          simp only [serialiseOverrides, hr] at hp
          rcases List.mem_cons.mp hp with h1 | h2
          · subst h1
            exact jsonRoundTrip_fixed hr
          · exact ih p h2

theorem serialise_issues_exact (ns : List (String × PyValue)) :
    (serialiseOverrides ns).2 =
      ns.filterMap (fun p =>
        if jsonRoundTrip p.2 = none then some (serialiseIssue p.1 p.2) else none) := by
  induction ns with
  | nil => rfl
  | cons kv rest ih =>
      obtain ⟨k, v⟩ := kv
      cases hr : jsonRoundTrip v with
      | none => simp [serialiseOverrides, hr, List.filterMap_cons, ih]
      | some w => simp [serialiseOverrides, hr, List.filterMap_cons, ih]

theorem serialise_key_of_mem (ns : List (String × PyValue)) (k : String) (w : PyValue)
    (h : (k, w) ∈ (serialiseOverrides ns).1) : k ∈ ns.map Prod.fst := by
  induction ns with
  | nil => simp [serialiseOverrides] at h
  | cons kv rest ih =>
      obtain ⟨k2, v⟩ := kv
      cases hr : jsonRoundTrip v with
      | none =>
          simp only [serialiseOverrides, hr] at h
          simp [ih h]
      | some u =>
          simp only [serialiseOverrides, hr] at h
          rcases List.mem_cons.mp h with h1 | h2
          · simp [Prod.ext_iff] at h1
            simp [h1.1]
          · simp [ih h2]

theorem serialise_failed_absent (ns : List (String × PyValue)) (k : String) (v w : PyValue)
    (hnd : (ns.map Prod.fst).Nodup) (hmem : (k, v) ∈ ns) (hfail : jsonRoundTrip v = none) :
    (k, w) ∉ (serialiseOverrides ns).1 := by
  induction ns with
  | nil => simp at hmem
  | cons kv rest ih =>
      obtain ⟨k2, v2⟩ := kv
      simp only [List.map_cons, List.nodup_cons] at hnd
      rcases List.mem_cons.mp hmem with h1 | h2
      · injection h1 with hk hv
        subst hk
        subst hv
        simp only [serialiseOverrides, hfail]
        intro hin
        exact hnd.1 (serialise_key_of_mem rest k w hin)
      · have hkrest : k ∈ rest.map Prod.fst := List.mem_map.mpr ⟨(k, v), h2, rfl⟩
        have hne : k2 ≠ k := fun he => hnd.1 (he ▸ hkrest)
        cases hu : jsonRoundTrip v2 with
        | none =>
            simp only [serialiseOverrides, hu]
            exact ih hnd.2 h2
        | some u =>
            simp only [serialiseOverrides, hu]
            intro hin
            rcases List.mem_cons.mp hin with hh | ht
            · simp [Prod.ext_iff] at hh
              exact hne hh.1.symm
            · exact ih hnd.2 h2 ht

theorem stepStmt_failed (st : EvalState) (s : Stmt) (er : PyError)
    (h : runStmt st.ns s = StmtOutcome.failed er) :
    stepStmt st s = { st with issues := st.issues ++ [errIssue er] } := by
  simp [stepStmt, h]

theorem stepStmt_appends (st : EvalState) (s : Stmt) :
    ∃ t : List String, (stepStmt st s).issues = st.issues ++ t ∧ t.length ≤ 1 := by
  unfold stepStmt
  cases runStmt st.ns s with
  | boundImport k v => exact ⟨[], by simp⟩
  | boundVar k v => exact ⟨[], by simp⟩
  | noEffect => exact ⟨[], by simp⟩
  | deadExpr tn => exact ⟨[deadExprIssue tn], by simp⟩
  | failed er => exact ⟨[errIssue er], by simp⟩

theorem foldl_issues_extend (L : List Stmt) :
    ∀ st : EvalState, ∃ t : List String,
      (L.foldl stepStmt st).issues = st.issues ++ t := by
  induction L with
  | nil => intro st; exact ⟨[], by simp⟩
  | cons s rest ih =>
      intro st
      obtain ⟨t1, h1, _⟩ := stepStmt_appends st s
      obtain ⟨t2, h2⟩ := ih (stepStmt st s)
      exact ⟨t1 ++ t2, by simp [List.foldl_cons, h2, h1, List.append_assoc]⟩

theorem isPrefixOf_append_self (l t : List Char) : l.isPrefixOf (l ++ t) = true := by
  induction l with
  | nil => simp [List.isPrefixOf]
  | cons c rest ih => simp [List.isPrefixOf, ih]

theorem pyStartsWith_append (p t : String) : pyStartsWith (p ++ t) p = true := by
  unfold pyStartsWith
  cases p with
  | mk pdata =>
      cases t with
      | mk tdata =>
          show pdata.isPrefixOf (pdata ++ tdata) = true
          exact isPrefixOf_append_self _ _

theorem rerun_title_idem (t : String) : rerun_title (rerun_title t) = rerun_title t := by
  unfold rerun_title
  by_cases h : pyStartsWith t ("Rerun of ") = true
  · simp [h]
  · simp [h, pyStartsWith_append]

/-- C1: every variable key in the final mapping of `handle_overrides` holds
a value that serialises through the canonical JSON format and deserialises
back to an equal value; a statement whose evaluation raised leaves the
state unchanged except for exactly one error issue (so its target is never
bound); the Serializability Validator emits exactly one issue per
non-serialisable binding (and nothing else), and a binding that failed the
check is absent from the output mapping. -/
theorem c1_final_mapping_invariant (raw : Option String) (iss0 : List String)
    (st : EvalState) (s : Stmt) (er : PyError)
    (ns : List (String × PyValue)) (k : String) (v w : PyValue) :
    (∀ p ∈ (handle_overrides raw iss0).1, jsonRoundTrip p.2 = some p.2)
    ∧ (runStmt st.ns s = StmtOutcome.failed er →
        stepStmt st s = { st with issues := st.issues ++ [errIssue er] })
    ∧ (serialiseOverrides ns).2 =
        ns.filterMap (fun p =>
          if jsonRoundTrip p.2 = none then some (serialiseIssue p.1 p.2) else none)
    ∧ ((ns.map Prod.fst).Nodup → (k, v) ∈ ns → jsonRoundTrip v = none →
        (k, w) ∉ (serialiseOverrides ns).1) := by
  refine ⟨?_, stepStmt_failed st s er, serialise_issues_exact ns,
    fun hnd hmem hfail => serialise_failed_absent ns k v w hnd hmem hfail⟩
  cases raw with
  | none => intro p hp; simp [handle_overrides] at hp
  | some str => exact fun p hp => serialise_mem_roundtrip _ p hp

/-- C1 witness: the invariant instantiated at concrete inputs — a
serialisable assignment round-trips to itself; an assignment whose
right-hand side raises a name error appends exactly one issue and binds
nothing; a `datetime` value yields exactly its one serialisation issue and
is absent from the output. -/
theorem c1_witness :
    (∀ p ∈ (handle_overrides (some ("d = 5")) []).1, jsonRoundTrip p.2 = some p.2)
    ∧ stepStmt (EvalState.mk [] [] []) (Stmt.assign ("d") ("q")) =
        EvalState.mk [] [] ["An error was encountered: name \x27q\x27 is not defined"]
    ∧ (serialiseOverrides [(("d" : String), PyValue.vDatetime 2018 1 1 0 0 0)]).2 =
        [(("d" : String), PyValue.vDatetime 2018 1 1 0 0 0)].filterMap (fun p =>
          if jsonRoundTrip p.2 = none then some (serialiseIssue p.1 p.2) else none)
    ∧ (("d" : String), PyValue.vNone) ∉
        (serialiseOverrides [(("d" : String), PyValue.vDatetime 2018 1 1 0 0 0)]).1 := by
  have h := c1_final_mapping_invariant (some ("d = 5")) [] (EvalState.mk [] [] [])
    (Stmt.assign ("d") ("q")) (PyError.nameError ("q"))
    [(("d" : String), PyValue.vDatetime 2018 1 1 0 0 0)]
    ("d") (PyValue.vDatetime 2018 1 1 0 0 0) PyValue.vNone
  exact ⟨h.1, h.2.1 (by rfl), h.2.2.1, h.2.2.2 (by decide) (by decide) (by rfl)⟩

/-- C2 counterexample: for the input
`import datetime;datetime.datetime(2018, 1, 1)` the dead-expression issue
interpolates the AST node type `ast.Call`, even though the value the expression
evaluates to is a `datetime.datetime` instance — so the issue does not
name the type of the evaluated value as the claim states. -/
theorem c2_counterexample :
    (handle_overrides (some ("import datetime;datetime.datetime(2018, 1, 1)")) []).2 =
      [deadExprIssue ("<class \x27ast.Call\x27>")]
    ∧ evalExpr1 [(("datetime" : String), PyValue.vModule ("datetime"))]
        (Expr.call (Expr.attr (Expr.name ("datetime")) ("datetime"))
          (Expr.argsCons (Expr.intLit 2018)
            (Expr.argsCons (Expr.intLit 1) (Expr.argsCons (Expr.intLit 1) Expr.argsNil)))) =
        Except.ok (PyValue.vDatetime 2018 1 1 0 0 0)
    ∧ pyTypeName (PyValue.vDatetime 2018 1 1 0 0 0) = "datetime.datetime"
    ∧ deadExprIssue ("<class \x27ast.Call\x27>") ≠
        deadExprIssue ("<class \x27datetime.datetime\x27>") := by
  exact ⟨rfl, rfl, rfl, by decide⟩

/-- C2 (amended): a bare-expression statement whose evaluation succeeds
with a non-null value is not bound into the output mapping and contributes
exactly one issue `Found an expression that did nothing! It has a value of
type: <t>`, where `<t>` is the type of the AST expression node of the statement
(for the input `import datetime;datetime.datetime(2018, 1, 1)`: the
`ast.Call` node type, not the datetime type of the runtime value). -/
theorem c2_dead_expression_reports_ast_type (st : EvalState) (etext : String)
    (e : Expr) (v : PyValue)
    (hp : parseExprText etext = some e)
    (he : evalExpr1 st.ns e = Except.ok v)
    (hv : v ≠ PyValue.vNone) :
    stepStmt st (Stmt.bare etext) =
      { st with issues := st.issues ++ [deadExprIssue (astTypeName e)] } := by
  simp [stepStmt, runStmt, hp, he, hv]

/-- C2 witness: the amended statement at the concrete input of the claim — after
`import datetime`, the bare call `datetime.datetime(2018, 1, 1)` evaluates
to a non-null datetime value and the step appends exactly the `ast.Call`
warning without binding anything. -/
theorem c2_witness :
    stepStmt (EvalState.mk [(("datetime" : String), PyValue.vModule ("datetime"))] [] [])
        (Stmt.bare ("datetime.datetime(2018, 1, 1)")) =
      EvalState.mk [(("datetime" : String), PyValue.vModule ("datetime"))] []
        ["Found an expression that did nothing! It has a value of type: <class \x27ast.Call\x27>"] := by
  exact c2_dead_expression_reports_ast_type
    (EvalState.mk [(("datetime" : String), PyValue.vModule ("datetime"))] [] [])
    ("datetime.datetime(2018, 1, 1)")
    (Expr.call (Expr.attr (Expr.name ("datetime")) ("datetime"))
      (Expr.argsCons (Expr.intLit 2018)
        (Expr.argsCons (Expr.intLit 1) (Expr.argsCons (Expr.intLit 1) Expr.argsNil))))
    (PyValue.vDatetime 2018 1 1 0 0 0) (by rfl) (by rfl) (by decide)

/-- C3 counterexample: for the input
`import datetimes\nd = datetime.datetime(2018, 1, 1)` the issues list has
two entries, not exactly one — the failed import is reported, and the
subsequent assignment (processed independently) also reports that
`datetime` is not defined. -/
theorem c3_counterexample :
    (handle_overrides (some ("import datetimes\nd = datetime.datetime(2018, 1, 1)")) []).2.length = 2
    ∧ handle_overrides (some ("import datetimes\nd = datetime.datetime(2018, 1, 1)")) [] =
        ([], ["An error was encountered: No module named \x27datetimes\x27",
              "An error was encountered: name \x27datetime\x27 is not defined"]) := by
  exact ⟨rfl, rfl⟩

/-- C3 (amended): an import of a module outside the allow-list binds
nothing and appends exactly the issue
`An error was encountered: No module named <name>` (the name in quotes); for the input
`import datetimes\nd = datetime.datetime(2018, 1, 1)` the output mapping is
empty and the issues are exactly the module error followed by the
name-not-defined error from the independently processed assignment. -/
theorem c3_amended_import_error (st : EvalState) (m bindAs : String)
    (h : m ∉ allowedModules) :
    stepStmt st (Stmt.imp m bindAs) =
      { st with issues :=
          st.issues ++ ["An error was encountered: No module named \x27" ++ m ++ "\x27"] }
    ∧ handle_overrides (some ("import datetimes\nd = datetime.datetime(2018, 1, 1)")) [] =
        ([], ["An error was encountered: No module named \x27datetimes\x27",
              "An error was encountered: name \x27datetime\x27 is not defined"]) := by
  constructor
  · simp [stepStmt, runStmt, h, errIssue, errMsg]
    simp only [← String.append_assoc]
    have hlit : ("An error was encountered: " ++ "No module named \x27") =
        ("An error was encountered: No module named \x27" : String) := rfl
    rw [hlit]
  · rfl

/-- C3 witness: the amended statement at the failing import itself —
`import datetimes` against an empty state appends exactly the module
error. -/
theorem c3_witness :
    stepStmt (EvalState.mk [] [] []) (Stmt.imp ("datetimes") ("datetimes")) =
      EvalState.mk [] [] ["An error was encountered: No module named \x27datetimes\x27"] := by
  exact (c3_amended_import_error (EvalState.mk [] [] []) ("datetimes") ("datetimes")
    (by decide)).1

/-- C4: `handle_overrides` is exception-free — for every input (null,
empty, or malformed) it returns the issues list of the caller extended only by
appended diagnostics (the input issues are a prefix of the output issues),
and processing any single statement returns normally, appending at most one
issue; internal failures surface only as issue strings. -/
theorem c4_exception_free (raw : Option String) (iss0 : List String)
    (st : EvalState) (s : Stmt) :
    iss0 <+: (handle_overrides raw iss0).2
    ∧ (∃ t : List String, (stepStmt st s).issues = st.issues ++ t ∧ t.length ≤ 1) := by
  refine ⟨?_, stepStmt_appends st s⟩
  cases raw with
  | none => exact ⟨[], by simp [handle_overrides]⟩
  | some str =>
      obtain ⟨t, ht⟩ := foldl_issues_extend (parseStatements str) (EvalState.mk [] [] iss0)
      refine ⟨t ++ (serialiseOverrides ((parseStatements str).foldl stepStmt
        (EvalState.mk [] [] iss0)).vars).2, ?_⟩
      show iss0 ++ (t ++ _) = ((parseStatements str).foldl stepStmt
        (EvalState.mk [] [] iss0)).issues ++ _
      rw [ht]
      rw [List.append_assoc]

/-- C5: whenever the issues list is non-empty after override handling and
run-parameter validation, `_handle_run_report` returns the JSON response
with status `Failed` whose content is the issues joined by newlines, and
`run_report_in_subprocess` is not called. -/
theorem c5_issues_abort_submission (ov : List (String × PyValue))
    (iss viss : List String)
    (runJob : List (String × PyValue) → Except String String)
    (h : iss ++ viss ≠ []) :
    handle_run_report ov iss viss runJob =
      (RunResponse.statusResp ("Failed") (String.intercalate ("\n") (iss ++ viss)), false) := by
  simp [handle_run_report, h]

/-- C5 witness: with one override-handling issue present, the response is
the failed status carrying that issue and no job is started, whatever the
job runner would have returned. -/
theorem c5_witness :
    handle_run_report [] ["An error was encountered: No module named \x27datetimes\x27"] []
        (fun _ => Except.ok ("new-job-id")) =
      (RunResponse.statusResp ("Failed")
        ("An error was encountered: No module named \x27datetimes\x27"), false) := by
  exact c5_issues_abort_submission [] ["An error was encountered: No module named \x27datetimes\x27"]
    [] (fun _ => Except.ok ("new-job-id")) (by decide)

/-- C6 counterexample: the statement `d = datetime.nosuch(q)` (after
`import datetime`) references the unbound name `q`, yet the only issue
reported is the attribute error raised before the evaluation ever reaches
`q` — no `name 'q' is not defined` issue is produced, contradicting the
claim as stated. -/
theorem c6_counterexample :
    parseExprText ("datetime.nosuch(q)") =
      some (Expr.call (Expr.attr (Expr.name ("datetime")) ("nosuch"))
        (Expr.argsCons (Expr.name ("q")) Expr.argsNil))
    ∧ ("q" : String) ∈ freeVars (Expr.call (Expr.attr (Expr.name ("datetime")) ("nosuch"))
        (Expr.argsCons (Expr.name ("q")) Expr.argsNil))
    ∧ lookupVar [(("datetime" : String), PyValue.vModule ("datetime"))] ("q") = none
    ∧ handle_overrides (some ("import datetime\nd = datetime.nosuch(q)")) [] =
        ([], ["An error was encountered: module \x27datetime\x27 has no attribute \x27nosuch\x27"])
    ∧ ("An error was encountered: name \x27q\x27 is not defined" : String) ∉
        (handle_overrides (some ("import datetime\nd = datetime.nosuch(q)")) []).2 := by
  exact ⟨rfl, by decide, rfl, rfl, by decide⟩

/-- C6 (amended): a statement whose evaluation fails with a name error on
`<x>` binds nothing and appends exactly one issue
`An error was encountered: name '<x>' is not defined`; evaluating a
reference to a name with no binding (forward references included) fails
with exactly that name error; but a statement may instead fail with a
different error before its unbound reference is reached. -/
theorem c6_name_error_issue (st : EvalState) (s : Stmt) (x : String)
    (ns : List (String × PyValue))
    (hrun : runStmt st.ns s = StmtOutcome.failed (PyError.nameError x))
    (hx : lookupVar ns x = none) :
    stepStmt st s =
      { st with issues :=
          st.issues ++ ["An error was encountered: name \x27" ++ x ++ "\x27 is not defined"] }
    ∧ evalExpr ns (Expr.name x) = Except.error (PyError.nameError x)
    ∧ handle_overrides (some ("d = datetime.datetime(2018, 1, 1)")) [] =
        ([], ["An error was encountered: name \x27datetime\x27 is not defined"]) := by
  refine ⟨?_, by simp [evalExpr, hx], rfl⟩
  rw [stepStmt_failed st s (PyError.nameError x) hrun]
  simp [errIssue, errMsg]
  simp only [← String.append_assoc]
  have hlit : ("An error was encountered: " ++ "name \x27") =
      ("An error was encountered: name \x27" : String) := rfl
  rw [hlit]

/-- C6 witness: the amended statement at a concrete forward reference — the
assignment `d = q` against an empty namespace appends exactly the
name-not-defined issue for `q` and binds nothing. -/
theorem c6_witness :
    stepStmt (EvalState.mk [] [] []) (Stmt.assign ("d") ("q")) =
      EvalState.mk [] [] ["An error was encountered: name \x27q\x27 is not defined"]
    ∧ evalExpr [] (Expr.name ("q")) = Except.error (PyError.nameError ("q")) := by
  have h := c6_name_error_issue (EvalState.mk [] [] []) (Stmt.assign ("d") ("q")) ("q") []
    (by rfl) (by rfl)
  exact ⟨h.1, h.2.1⟩

/-- C7: the Statement Parser handles semicolon-separated statements and
backslash line-continuation — the input of the claim splits into the from-import
and the two assignments, and `handle_overrides` returns both isoformat
strings with no issues. -/
theorem c7_semicolons_and_continuation :
    parseStatements ("from datetime import datetime as dt;d = dt(2018, 1, 1).isoformat()\nq=\\\ndt(2011, 5, 1).isoformat()") =
      [Stmt.impFrom ("datetime") ("datetime") ("dt"),
       Stmt.assign ("d") ("dt(2018, 1, 1).isoformat()"),
       Stmt.assign ("q") ("dt(2011, 5, 1).isoformat()")]
    ∧ handle_overrides (some ("from datetime import datetime as dt;d = dt(2018, 1, 1).isoformat()\nq=\\\ndt(2011, 5, 1).isoformat()")) [] =
        ([(("d" : String), PyValue.vStr ("2018-01-01T00:00:00")),
          (("q" : String), PyValue.vStr ("2011-05-01T00:00:00"))], []) := by
  exact ⟨rfl, rfl⟩

/-- C8: the Serializability Validator is idempotent — applied to a mapping
whose values have already been round-tripped through the canonical JSON
format, it returns the identical mapping and appends no issues. -/
theorem c8_validator_idempotent (ns : List (String × PyValue)) :
    serialiseOverrides (serialiseOverrides ns).1 = ((serialiseOverrides ns).1, []) := by
  induction ns with
  | nil => rfl
  | cons kv rest ih =>
      obtain ⟨k, v⟩ := kv
      cases hr : jsonRoundTrip v with
      | none => simpa [serialiseOverrides, hr] using ih
      | some w =>
          simp only [serialiseOverrides, hr]
          rw [Prod.ext_iff] at ih
          simp only [serialiseOverrides, jsonRoundTrip_fixed hr]
          exact Prod.ext_iff.mpr ⟨by simp [ih.1], by simp [ih.2]⟩

/-- C9: null, empty, and blank override input produce an empty statement
sequence and hence an empty output mapping with no new issues. -/
theorem c9_empty_blank_null (iss : List String) (s : String)
    (h : ∀ c ∈ s.data, isSpaceCh c = true) :
    handle_overrides none iss = ([], iss)
    ∧ handle_overrides (some ("")) iss = ([], iss)
    ∧ parseStatements s = []
    ∧ handle_overrides (some s) iss = ([], iss) := by
  have hps : parseStatements s = [] := by
    unfold parseStatements
    rw [splitStatements_blank s h]
    rfl
  refine ⟨rfl, ?_, hps, ?_⟩
  · show (([] : List (String × PyValue)), iss ++ ([] : List String)) = ([], iss)
    simp
  · simp only [handle_overrides, hps, List.foldl_nil]
    show (([] : List (String × PyValue)), iss ++ ([] : List String)) = ([], iss)
    simp

/-- C9 witness: a concrete blank input (spaces, a tab, a newline) yields an
empty mapping and leaves the issues of the caller untouched. -/
theorem c9_witness :
    handle_overrides none ["existing"] = ([], ["existing"])
    ∧ handle_overrides (some ("  \t\n ")) ["existing"] = ([], ["existing"]) := by
  have h := c9_empty_blank_null ["existing"] ("  \t\n ") (by decide)
  exact ⟨h.1, h.2.2.2⟩

/-- C10: `_rerun_report` passes the stored overrides mapping to
`run_report_in_subprocess` verbatim; the submitted title is
`Rerun of ` + the stored title unless the stored title already carries the
prefix, in which case it is reused unchanged; hence rerunning a rerun never
stacks the prefix. -/
theorem c10_rerun_title_idempotent (r : CheckResult) :
    (rerun_report r).overrides = r.overrides
    ∧ (rerun_report r).report_title =
        (if pyStartsWith r.report_title ("Rerun of ") then r.report_title
         else ("Rerun of ") ++ r.report_title)
    ∧ (rerun_report { r with report_title := (rerun_report r).report_title }).report_title =
        (rerun_report r).report_title := by
  refine ⟨rfl, rfl, ?_⟩
  show rerun_title (rerun_title r.report_title) = rerun_title r.report_title
  exact rerun_title_idem r.report_title
